import Mathlib

/-!
Shallow embedding of the stream/track layer of the `media-server-go` fork
(`incomingstream.go`, `outgoingstream.go`).

Modelling conventions:
- Go `map[string]T` values are association lists `List (String × T)` in
  insertion order; `mapSet` overwrites an existing key in place and appends a
  fresh one, matching Go map assignment (iteration order of a Go map is
  unspecified; the model fixes insertion order, which is irrelevant to the
  properties proved here, all of which are order-insensitive or concern counts).
- A Go slice is a `List`; an out-of-range index access is a run-time panic,
  embedded as `Option` with `none` meaning "panics".  The `!= nil` check on a
  slice is modelled as non-emptiness.
- The native transport's dispatch table of registered source groups is carried
  as an explicit `regs` list inside the stream state; `AddIncomingSourceGroup`
  and `AddOutgoingSourceGroup` append to it.
- `transportAlive` / `receiverAlive` model the `transport` / `receiver`
  pointers being non-nil.
- `strconv.ParseUint(s, 10, 32)` is `parseUint32`; `strconv.Itoa` is `itoa`;
  `strings.ToLower` (applied to the ASCII media kinds used here) is `lowerStr`.
- Accessors of the `sdp` dependency (`GetSourceGroup`, `GetParams`,
  `GetSSRCs`, `GetEncodings`) are modelled as the corresponding reads of the
  descriptor record, with `GetSourceGroup` returning the first group carrying
  the requested semantics tag.
-/

namespace MediaServer

/-- Element of an SDP ssrc-group attribute as exposed by the sdp dependency:
a semantics tag (such as "FID", "FEC-FR", "SIM") and the ordered member
ssrcs returned by `GetSSRCs`. -/
structure SourceGroupInfo where
  semantics : String
  ssrcs : List Nat
deriving DecidableEq

/-- Named encoding of a track descriptor: `GetID` is the rid, `GetParams`
the parameter map (association list). -/
structure TrackEncodingInfo where
  id : String
  params : List (String × String)
deriving DecidableEq

/-- Track descriptor (`sdp.TrackInfo`): id, media kind, media id (mid),
ssrc list, ssrc-groups, and the nested encoding lists that
`GetEncodings` returns. -/
structure TrackInfo where
  id : String
  media : String
  mediaId : String
  ssrcs : List Nat
  groups : List SourceGroupInfo
  encodings : List (List TrackEncodingInfo)
deriving DecidableEq

/-- Models `sdp.TrackInfo.GetSourceGroup`: first ssrc-group whose semantics
equals the requested tag, if any. -/
def TrackInfo.GetSourceGroup (t : TrackInfo) (sem : String) : Option SourceGroupInfo :=
  t.groups.find? (fun g => g.semantics == sem)

/-- Single RTP source of the native layer: just the mutable ssrc is relevant
to the claims (a freshly constructed source has ssrc 0). -/
structure RTPSource where
  ssrc : Nat
deriving DecidableEq

/-- Native `RTPIncomingSourceGroup`: media frame type (0 audio / 1 video),
rid/mid tags and the media / rtx / fec sources.  `NewRTPIncomingSourceGroup`
yields empty tags and all-zero ssrcs. -/
structure RTPIncomingSourceGroup where
  mtype : Nat
  rid : String
  mid : String
  media : RTPSource
  rtx : RTPSource
  fec : RTPSource
deriving DecidableEq

/-- Constructor `native.NewRTPIncomingSourceGroup(mediaType, timeService)`. -/
def newRTPIncomingSourceGroup (mtype : Nat) : RTPIncomingSourceGroup :=
  ⟨mtype, "", "", ⟨0⟩, ⟨0⟩, ⟨0⟩⟩

/-- Native `RTPOutgoingSourceGroup` with its media / rtx / fec sources. -/
structure RTPOutgoingSourceGroup where
  mtype : Nat
  media : RTPSource
  rtx : RTPSource
  fec : RTPSource
deriving DecidableEq

/-- An `IncomingStreamTrack` as produced by `NewIncomingStreamTrack`:
media kind, id, and the resolved map encoding-key → source group. -/
structure IncomingStreamTrack where
  media : String
  id : String
  sources : List (String × RTPIncomingSourceGroup)
deriving DecidableEq

/-- An `OutgoingStreamTrack`: media kind, id, its single outgoing source
group, and the current pairing.  The track type lives in a source file not
part of this repository snapshot; the `attachedTo` field is modelled from the
spec: a track is paired with at most one incoming track, `AttachTo` sets the
pairing and `Detach` releases it. -/
structure OutgoingStreamTrack where
  media : String
  id : String
  source : RTPOutgoingSourceGroup
  attachedTo : Option String
deriving DecidableEq

/-- Transponder pairing one outgoing track with one incoming track.
Modelled from the spec: `OutgoingStreamTrack.AttachTo(incoming)` (whose file
is not in this snapshot) creates the transponder for the pair. -/
structure Transponder where
  outgoingId : String
  incomingId : String
deriving DecidableEq

/-- State of an `IncomingStream`: id, liveness of the transport and receiver
handles, the transport's dispatch table of registered incoming source groups,
and the track map. -/
structure IncomingStream where
  id : String
  transportAlive : Bool
  receiverAlive : Bool
  regs : List RTPIncomingSourceGroup
  tracks : List (String × IncomingStreamTrack)
deriving DecidableEq

/-- State of an `OutgoingStream`: id, liveness of the transport handle, the
transport's dispatch table of registered outgoing source groups, mute flag
and the track map. -/
structure OutgoingStream where
  id : String
  transportAlive : Bool
  muted : Bool
  regs : List RTPOutgoingSourceGroup
  tracks : List (String × OutgoingStreamTrack)
deriving DecidableEq

/-! ### Go map operations on association lists -/

/-- Key membership test of a Go string-keyed map. -/
def mapHasKey {α : Type} (m : List (String × α)) (k : String) : Bool :=
  m.any (fun p => p.1 == k)

/-- Go map assignment `m[k] = v`: overwrite in place if present, else append. -/
def mapSet {α : Type} (m : List (String × α)) (k : String) (v : α) : List (String × α) :=
  if mapHasKey m k then m.map (fun p => if p.1 == k then (k, v) else p)
  else m ++ [(k, v)]

/-- Go map read `m[k]`. -/
def mapGet {α : Type} (m : List (String × α)) (k : String) : Option α :=
  (m.find? (fun p => p.1 == k)).map (fun p => p.2)

/-- Number of entries of the map carrying key `k`. -/
def countKey {α : Type} (m : List (String × α)) (k : String) : Nat :=
  (m.filter (fun p => p.1 == k)).length

/-! ### Standard-library helpers used by the Go code -/

/-- Models `strconv.ParseUint(s, 10, 32)`: succeeds exactly on a non-empty
all-digit string whose value fits in 32 bits. -/
def parseUint32 (s : String) : Option Nat :=
  if s.data = [] then none
  else if s.data.all (fun c => c.isDigit) then
    let n := s.data.foldl (fun a c => a * 10 + (c.toNat - 48)) 0
    if n < 4294967296 then some n else none
  else none

/-- Decimal digits of `n`, least significant first; the first argument is
structural fuel (any fuel at least `n` is exact). -/
def revDigits : Nat → Nat → List Nat
  | 0, _ => []
  | f + 1, n => if n = 0 then [] else n % 10 :: revDigits f (n / 10)

/-- Models `strconv.Itoa`: decimal representation of a natural number. -/
def itoa (n : Nat) : String :=
  if n = 0 then "0"
  else ⟨((revDigits n n).map (fun d => Char.ofNat (48 + d))).reverse⟩

/-- Models `strings.ToLower` for the ASCII media-kind strings compared here. -/
def lowerStr (s : String) : String :=
  ⟨s.data.map Char.toLower⟩

/-! ### Source-group resolution (`IncomingStream.CreateTrack` body) -/

/-- Accumulated effect of resolution: groups registered with the transport so
far (in registration order) and the encoding-key → group map built so far. -/
structure ResolveState where
  regs : List RTPIncomingSourceGroup
  sources : List (String × RTPIncomingSourceGroup)
deriving DecidableEq

/-- `Transport.AddIncomingSourceGroup(source)` followed by
`sources[key] = source`. -/
def registerSource (st : ResolveState) (key : String) (src : RTPIncomingSourceGroup) : ResolveState :=
  ⟨st.regs ++ [src], mapSet st.sources key src⟩

/-- Body of the ssrc-group scan once a group's first member matched the
source's media ssrc: semantics "FID" stores the second member into the rtx
role, "FEC-FR" into the fec role; the index-1 accesses are unguarded. -/
def bindFidFec (src : RTPIncomingSourceGroup) (g : SourceGroupInfo) : Option RTPIncomingSourceGroup :=
  (if g.semantics == "FID" then
    (g.ssrcs[1]?).map (fun r => { src with rtx := ⟨r⟩ })
  else some src).bind (fun src1 =>
    if g.semantics == "FEC-FR" then
      (g.ssrcs[1]?).map (fun r => { src1 with fec := ⟨r⟩ })
    else some src1)

/-- One step of the ssrc-group scan of the explicit-encodings branch:
`group.GetSSRCs() != nil && group.GetSSRCs()[0] == source.GetMedia().GetSsrc()`
guards the body, so an empty member list is skipped. -/
def scanStep (src : RTPIncomingSourceGroup) (g : SourceGroupInfo) : Option RTPIncomingSourceGroup :=
  match g.ssrcs.head? with
  | none => some src
  | some s0 => if s0 = src.media.ssrc then bindFidFec src g else some src

/-- One step of the ssrc-group scan of the legacy-SIM branch: the guard is
`group.GetSSRCs()[0] == ssrc` with no nil check, so an empty member list is an
unguarded index access — a panic. -/
def scanStepSim (src : RTPIncomingSourceGroup) (g : SourceGroupInfo) : Option RTPIncomingSourceGroup :=
  match g.ssrcs.head? with
  | none => none
  | some s0 => if s0 = src.media.ssrc then bindFidFec src g else some src

/-- Fresh source group of the explicit-encodings branch before the ssrc
parameter is handled: rid set from the encoding, mid set when the track has a
non-empty media id. -/
def encBaseSource (track : TrackInfo) (mtype : Nat) (rid : String) : RTPIncomingSourceGroup :=
  let src0 := { newRTPIncomingSourceGroup mtype with rid := rid }
  if track.mediaId == "" then src0 else { src0 with mid := track.mediaId }

/-- Processing of one explicit encoding: build a fresh group tagged with the
rid (and mid when non-empty); when an `ssrc` parameter is present, parse it —
on failure `continue` (skip this encoding) — then scan the ssrc-groups;
finally register the group under the rid. -/
def processEncoding (track : TrackInfo) (mtype : Nat) (st : ResolveState)
    (e : TrackEncodingInfo) : Option ResolveState :=
  let rid := e.id
  let src0 := encBaseSource track mtype rid
  match mapGet e.params "ssrc" with
  | none => some (registerSource st rid src0)
  | some sstr =>
    match parseUint32 sstr with
    | none => some st
    | some v =>
      (track.groups.foldlM scanStep { src0 with media := ⟨v⟩ }).map
        (registerSource st rid)

/-- Explicit-encodings branch: the nested `for` loops over
`track.GetEncodings()` visit the flattened encoding list in order. -/
def processEncodings (track : TrackInfo) (mtype : Nat) : Option ResolveState :=
  (track.encodings.flatten).foldlM (processEncoding track mtype) ⟨[], []⟩

/-- Legacy-SIM branch: one group per member ssrc of the SIM ssrc-group, keyed
by the stringified position, each scanned against all ssrc-groups. -/
def processSim (track : TrackInfo) (mtype : Nat) (SIM : SourceGroupInfo) : Option ResolveState :=
  (SIM.ssrcs.enum).foldlM
    (fun st p =>
      (track.groups.foldlM scanStepSim { newRTPIncomingSourceGroup mtype with media := ⟨p.2⟩ }).map
        (fun src => registerSource st (itoa p.1) src))
    ⟨[], []⟩

/-- Single-flow fallback source: media ssrc is the descriptor's first ssrc
(unguarded index 0), rtx/fec the second member of the FID / FEC-FR group when
present (unguarded index 1) and 0 otherwise. -/
def computeFallbackSource (track : TrackInfo) (mtype : Nat) : Option RTPIncomingSourceGroup :=
  (track.ssrcs[0]?).bind (fun s0 =>
  (match track.GetSourceGroup "FID" with
   | some fid => fid.ssrcs[1]?
   | none => some 0).bind (fun rtxS =>
  (match track.GetSourceGroup "FEC-FR" with
   | some fg => fg.ssrcs[1]?
   | none => some 0).map (fun fecS =>
  { newRTPIncomingSourceGroup mtype with media := ⟨s0⟩, rtx := ⟨rtxS⟩, fec := ⟨fecS⟩ })))

/-- Media frame type passed to the native constructors: 1 for video, else 0. -/
def mtypeOf (track : TrackInfo) : Nat :=
  if track.media == "video" then 1 else 0

/-- Branch selection of the resolver, in the priority order of the code:
explicit encodings, then legacy SIM group, then single-flow fallback. -/
def resolveTrackSources (track : TrackInfo) (mtype : Nat) : Option ResolveState :=
  if track.encodings.length > 0 then processEncodings track mtype
  else match track.GetSourceGroup "SIM" with
    | some SIM => processSim track mtype SIM
    | none =>
      (computeFallbackSource track mtype).map (fun src => registerSource ⟨[], []⟩ "" src)

/-- `IncomingStream.CreateTrack`: early no-op `nil` return when the track id
is already present; otherwise resolve the descriptor into source groups,
register them with the transport, build the track and insert it.  The outer
`Option` is the panic monad, the inner `Option` the returned track pointer. -/
def IncomingStream.CreateTrack (s : IncomingStream) (track : TrackInfo) :
    Option (IncomingStream × Option IncomingStreamTrack) :=
  if mapHasKey s.tracks track.id then some (s, none)
  else
    (resolveTrackSources track (mtypeOf track)).map (fun st =>
      let tr : IncomingStreamTrack := ⟨track.media, track.id, st.sources⟩
      ({ s with regs := s.regs ++ st.regs, tracks := mapSet s.tracks track.id tr }, some tr))

/-- Source-group computation of `OutgoingStream.CreateTrack`: same unguarded
single-flow shape as the incoming fallback (index 0 of the ssrc list, index 1
of the FID / FEC-FR groups). -/
def computeOutgoingSource (track : TrackInfo) (mtype : Nat) : Option RTPOutgoingSourceGroup :=
  (track.ssrcs[0]?).bind (fun s0 =>
  (match track.GetSourceGroup "FID" with
   | some fid => fid.ssrcs[1]?
   | none => some 0).bind (fun rtxS =>
  (match track.GetSourceGroup "FEC-FR" with
   | some fg => fg.ssrcs[1]?
   | none => some 0).map (fun fecS =>
  (⟨mtype, ⟨s0⟩, ⟨rtxS⟩, ⟨fecS⟩⟩ : RTPOutgoingSourceGroup))))

/-- `OutgoingStream.CreateTrack`: the source group (and its possible panic) is
computed first, the duplicate-id check returns `nil` before the group is
registered with the transport, otherwise the group is registered and the new
track inserted. -/
def OutgoingStream.CreateTrack (s : OutgoingStream) (track : TrackInfo) :
    Option (OutgoingStream × Option OutgoingStreamTrack) :=
  (computeOutgoingSource track (mtypeOf track)).map (fun src =>
    if mapHasKey s.tracks track.id then (s, none)
    else
      let tr : OutgoingStreamTrack := ⟨track.media, track.id, src, none⟩
      ({ s with regs := s.regs ++ [src], tracks := mapSet s.tracks tr.id tr }, some tr))

/-! ### Membership edits -/

/-- `IncomingStream.AddTrack`: returns the duplicate-id error (first pair
component) leaving the stream untouched when the id is present, otherwise
inserts. -/
def IncomingStream.AddTrack (s : IncomingStream) (t : IncomingStreamTrack) :
    Option String × IncomingStream :=
  if mapHasKey s.tracks t.id then (some "Track Id already present in stream", s)
  else (none, { s with tracks := mapSet s.tracks t.id t })

/-- `OutgoingStream.AddTrack`: the Go method has no error return value, so the
error component is constantly `none`; a duplicate id silently returns without
modifying the map, otherwise the track is inserted. -/
def OutgoingStream.AddTrack (s : OutgoingStream) (t : OutgoingStreamTrack) :
    Option String × OutgoingStream :=
  if mapHasKey s.tracks t.id then (none, s)
  else (none, { s with tracks := mapSet s.tracks t.id t })

/-! ### Track filtering and attachment -/

/-- `IncomingStream.GetAudioTracks` / `GetVideoTracks` filter the track map
values by lower-cased media kind. -/
def IncomingStream.GetKindTracks (s : IncomingStream) (kind : String) : List IncomingStreamTrack :=
  (s.tracks.map (fun p => p.2)).filter (fun t => lowerStr t.media == kind)

/-- `OutgoingStream.GetAudioTracks` / `GetVideoTracks` filter the track map
values by lower-cased media kind. -/
def OutgoingStream.GetKindTracks (s : OutgoingStream) (kind : String) : List OutgoingStreamTrack :=
  (s.tracks.map (fun p => p.2)).filter (fun t => lowerStr t.media == kind)

/-- Modelled from the spec: `OutgoingStreamTrack.AttachTo` (its source file is
not in this snapshot) pairs the outgoing track with the incoming track and
yields the transponder of the pair. -/
def OutgoingStreamTrack.AttachTo (t : OutgoingStreamTrack) (it : IncomingStreamTrack) : Transponder :=
  ⟨t.id, it.id⟩

/-- Modelled from the spec: `OutgoingStreamTrack.Detach` (source file not in
this snapshot) releases the track's pairing, leaving the rest of the track
untouched. -/
def OutgoingStreamTrack.Detach (t : OutgoingStreamTrack) : OutgoingStreamTrack :=
  { t with attachedTo := none }

/-- `OutgoingStream.Detach`: calls `Detach` on every track of the map; the map
itself is not modified. -/
def OutgoingStream.Detach (o : OutgoingStream) : OutgoingStream :=
  { o with tracks := o.tracks.map (fun p => (p.1, p.2.Detach)) }

/-- The per-kind pairing loop of `AttachTo`:
`for i, track := range incomingTracks { if i < index { outs[i].AttachTo(track) } }`
with `outs[i]` an unguarded index access (panic when out of range). -/
def attachLoop (outs : List OutgoingStreamTrack) (ins : List IncomingStreamTrack)
    (index : Nat) : Option (List Transponder) :=
  (ins.enum).foldlM
    (fun acc p =>
      if p.1 < index then (outs[p.1]?).map (fun o => acc ++ [o.AttachTo p.2])
      else some acc)
    []

/-- Per-kind body of `AttachTo`: skipped when the outgoing kind list is empty;
otherwise `index` starts at the outgoing count and is raised to the incoming
count whenever that is larger, and the pairing loop runs over the incoming
tracks. -/
def attachKind (outs : List OutgoingStreamTrack) (ins : List IncomingStreamTrack) :
    Option (List Transponder) :=
  if outs.length > 0 then
    let index := if outs.length < ins.length then ins.length else outs.length
    attachLoop outs ins index
  else some []

/-- `OutgoingStream.AttachTo`: detach first, then run the audio pairing loop
followed by the video pairing loop, accumulating the transponders. -/
def OutgoingStream.AttachTo (o : OutgoingStream) (i : IncomingStream) :
    Option (List Transponder) :=
  let o := o.Detach
  (attachKind (o.GetKindTracks "audio") (i.GetKindTracks "audio")).bind (fun ta =>
  (attachKind (o.GetKindTracks "video") (i.GetKindTracks "video")).map (fun tv =>
  ta ++ tv))

/-! ### Stop -/

/-- `IncomingStream.Stop`: no-op when the transport handle is already nil;
otherwise stop and delete every track, delete the receiver facade and nil both
handles.  The commented-out finalizers mean the registered incoming source
groups are not removed from the transport here. -/
def IncomingStream.Stop (s : IncomingStream) : IncomingStream :=
  if s.transportAlive = false then s
  else { s with tracks := [], receiverAlive := false, transportAlive := false }

/-- Modelled from the spec: `OutgoingStreamTrack.DeleteOutgoingSourceGroup`
(source file not in this snapshot) unregisters the track's source group from
the transport's dispatch table. -/
def OutgoingStreamTrack.DeleteOutgoingSourceGroup (t : OutgoingStreamTrack)
    (regs : List RTPOutgoingSourceGroup) : List RTPOutgoingSourceGroup :=
  regs.erase t.source

/-- `OutgoingStream.Stop`: no-op when the transport handle is already nil;
otherwise stop each track and unregister its source group, replace the track
map by a fresh empty one and nil the transport handle. -/
def OutgoingStream.Stop (o : OutgoingStream) : OutgoingStream :=
  if o.transportAlive = false then o
  else
    { o with
      regs := o.tracks.foldl (fun r p => p.2.DeleteOutgoingSourceGroup r) o.regs,
      tracks := [],
      transportAlive := false }

/-! ### Claim-side specification values

These definitions follow the wording of the specification ("the second member
of an ssrc-group with semantics FID whose first member equals that ssrc, when
present, else 0") and are compared against the resolution code above. -/

/-- Predicate "ssrc-group with the given semantics whose first member is `m`". -/
def fidPred (sem : String) (m : Nat) (g : SourceGroupInfo) : Bool :=
  g.semantics == sem && g.ssrcs.head? == some m

/-- Companion ssrc prescribed by the spec: second member of the (unique)
ssrc-group with the given semantics whose first member equals `m`, else 0. -/
def companion (groups : List SourceGroupInfo) (sem : String) (m : Nat) : Nat :=
  match groups.find? (fidPred sem m) with
  | some g => g.ssrcs.getD 1 0
  | none => 0

/-- Companion ssrc prescribed by the spec for the single-flow fallback: second
member of the descriptor's group with the given semantics when present, else 0. -/
def singleCompanion (track : TrackInfo) (sem : String) : Nat :=
  match track.GetSourceGroup sem with
  | some g => g.ssrcs.getD 1 0
  | none => 0

/-- Source group the spec prescribes for one explicit encoding. -/
def resolveEncodingSpec (track : TrackInfo) (mtype : Nat) (e : TrackEncodingInfo) :
    RTPIncomingSourceGroup :=
  let base := encBaseSource track mtype e.id
  match mapGet e.params "ssrc" with
  | none => base
  | some sstr =>
    match parseUint32 sstr with
    | none => base
    | some v =>
      { base with
        media := ⟨v⟩,
        rtx := ⟨companion track.groups "FID" v⟩,
        fec := ⟨companion track.groups "FEC-FR" v⟩ }

/-- Source group the spec prescribes for one member of a legacy SIM group. -/
def resolveSimMemberSpec (track : TrackInfo) (mtype : Nat) (m : Nat) :
    RTPIncomingSourceGroup :=
  { newRTPIncomingSourceGroup mtype with
    media := ⟨m⟩,
    rtx := ⟨companion track.groups "FID" m⟩,
    fec := ⟨companion track.groups "FEC-FR" m⟩ }

/-- At most one FID and at most one FEC-FR ssrc-group has first member `m`:
the spec speaks of "the" matching companion group. -/
def uniqueMatches (groups : List SourceGroupInfo) (m : Nat) : Prop :=
  (groups.filter (fidPred "FID" m)).length ≤ 1 ∧
  (groups.filter (fidPred "FEC-FR" m)).length ≤ 1

instance (groups : List SourceGroupInfo) (m : Nat) : Decidable (uniqueMatches groups m) :=
  inferInstanceAs (Decidable (_ ∧ _))

/-- Every FID / FEC-FR ssrc-group whose first member equals `m` carries the
companion as second member (so the unguarded index-1 read is in range). -/
def matchesLongEnough (groups : List SourceGroupInfo) (m : Nat) : Prop :=
  ∀ g ∈ groups, (g.semantics = "FID" ∨ g.semantics = "FEC-FR") →
    g.ssrcs.head? = some m → 2 ≤ g.ssrcs.length

instance (groups : List SourceGroupInfo) (m : Nat) : Decidable (matchesLongEnough groups m) :=
  inferInstanceAs (Decidable (∀ g ∈ groups, _))

/-- The encoding's `ssrc` parameter, when declared, parses as a 32-bit
unsigned integer. -/
def encParses (e : TrackEncodingInfo) : Prop :=
  ∀ sstr, mapGet e.params "ssrc" = some sstr → (parseUint32 sstr).isSome = true

instance (e : TrackEncodingInfo) : Decidable (encParses e) :=
  match h : mapGet e.params "ssrc" with
  | none => isTrue (fun _ hv => by rw [h] at hv; cases hv)
  | some s0 =>
    decidable_of_iff ((parseUint32 s0).isSome = true)
      ⟨fun hok sstr hv => by rw [h] at hv; cases hv; exact hok,
       fun hall => hall s0 h⟩

/-- The ssrc-groups are unambiguous and long enough for the value the
encoding's `ssrc` parameter parses to (trivially true when it is absent or
unparseable). -/
def encGroupsOk (track : TrackInfo) (e : TrackEncodingInfo) : Prop :=
  ∀ v : Nat, (mapGet e.params "ssrc").bind parseUint32 = some v →
    uniqueMatches track.groups v ∧ matchesLongEnough track.groups v

instance (track : TrackInfo) (e : TrackEncodingInfo) : Decidable (encGroupsOk track e) :=
  match h : (mapGet e.params "ssrc").bind parseUint32 with
  | none => isTrue (fun _ hv => by rw [h] at hv; cases hv)
  | some v0 =>
    decidable_of_iff (uniqueMatches track.groups v0 ∧ matchesLongEnough track.groups v0)
      ⟨fun hok v hv => by rw [h] at hv; cases hv; exact hok,
       fun hall => hall v0 h⟩

/-- Precondition of the single-flow fallback (claim C10): non-empty ssrc list
and, when a FID / FEC-FR group is present, at least two members in it. -/
def fallbackSafe (track : TrackInfo) : Prop :=
  track.ssrcs ≠ [] ∧
  (∀ g, track.GetSourceGroup "FID" = some g → 2 ≤ g.ssrcs.length) ∧
  (∀ g, track.GetSourceGroup "FEC-FR" = some g → 2 ≤ g.ssrcs.length)

instance (track : TrackInfo) : Decidable (fallbackSafe track) := by
  unfold fallbackSafe
  exact inferInstanceAs (Decidable (_ ∧ _))

/-- Precondition of the legacy-SIM branch (claim C10): every ssrc-group has a
first member, and every FID / FEC-FR group matching a SIM member has a second. -/
def simSafe (track : TrackInfo) (SIM : SourceGroupInfo) : Prop :=
  (∀ g ∈ track.groups, g.ssrcs ≠ []) ∧
  (∀ m ∈ SIM.ssrcs, matchesLongEnough track.groups m)

instance (track : TrackInfo) (SIM : SourceGroupInfo) : Decidable (simSafe track SIM) := by
  unfold simSafe
  exact inferInstanceAs (Decidable (_ ∧ _))

/-- Incoming source group the spec prescribes for the single-flow fallback:
media ssrc is the descriptor's first ssrc, rtx/fec the FID / FEC-FR
companions (0 when the group is absent), no rid/mid tags. -/
def fallbackSpecSource (track : TrackInfo) : RTPIncomingSourceGroup :=
  ⟨mtypeOf track, "", "", ⟨track.ssrcs.headD 0⟩,
   ⟨singleCompanion track "FID"⟩, ⟨singleCompanion track "FEC-FR"⟩⟩

/-- Outgoing source group the spec prescribes for `OutgoingStream.CreateTrack`
(same single-flow shape). -/
def fallbackSpecOutSource (track : TrackInfo) : RTPOutgoingSourceGroup :=
  ⟨mtypeOf track, ⟨track.ssrcs.headD 0⟩,
   ⟨singleCompanion track "FID"⟩, ⟨singleCompanion track "FEC-FR"⟩⟩

/-! ### Concrete inputs used by counterexamples and witnesses -/

/-- Outgoing audio track "oa1". -/
def outTrackA1 : OutgoingStreamTrack := ⟨"audio", "oa1", ⟨0, ⟨100⟩, ⟨0⟩, ⟨0⟩⟩, none⟩

/-- Outgoing video track "ov1". -/
def outTrackV1 : OutgoingStreamTrack := ⟨"video", "ov1", ⟨1, ⟨200⟩, ⟨0⟩, ⟨0⟩⟩, none⟩

/-- Incoming audio track "ia1". -/
def inTrackA1 : IncomingStreamTrack := ⟨"audio", "ia1", []⟩

/-- Incoming audio track "ia2". -/
def inTrackA2 : IncomingStreamTrack := ⟨"audio", "ia2", []⟩

/-- Incoming video track "iv1". -/
def inTrackV1 : IncomingStreamTrack := ⟨"video", "iv1", []⟩

/-- Outgoing stream with one audio and one video track. -/
def outStream11 : OutgoingStream :=
  ⟨"os", true, false, [], [("oa1", outTrackA1), ("ov1", outTrackV1)]⟩

/-- Incoming stream with two audio tracks and one video track. -/
def inStream21 : IncomingStream :=
  ⟨"is", true, true, [], [("ia1", inTrackA1), ("ia2", inTrackA2), ("iv1", inTrackV1)]⟩

/-- Descriptor of the C4 scenario: one explicit encoding with ssrc 1111 and an
ssrc-group FID = [1111, 2222]. -/
def trackScenarioC4 : TrackInfo :=
  ⟨"t4", "video", "", [1111], [⟨"FID", [1111, 2222]⟩], [[⟨"hi", [("ssrc", "1111")]⟩]]⟩

/-- Plain audio descriptor with a single ssrc and no groups. -/
def trackPlain : TrackInfo := ⟨"tp", "audio", "", [3333], [], []⟩

/-- Empty incoming stream. -/
def inStream0 : IncomingStream := ⟨"is0", true, true, [], []⟩

/-- Empty outgoing stream. -/
def outStream0 : OutgoingStream := ⟨"os0", true, false, [], []⟩

/-- Incoming source group that resolving `trackPlain` produces. -/
def srcPlain : RTPIncomingSourceGroup := ⟨0, "", "", ⟨3333⟩, ⟨0⟩, ⟨0⟩⟩

/-- Incoming track that `CreateTrack trackPlain` produces. -/
def trPlain : IncomingStreamTrack := ⟨"audio", "tp", [("", srcPlain)]⟩

/-- State of `inStream0` after `CreateTrack trackPlain`. -/
def inStreamP : IncomingStream := ⟨"is0", true, true, [srcPlain], [("tp", trPlain)]⟩

/-- Outgoing source group that resolving `trackPlain` produces. -/
def osrcPlain : RTPOutgoingSourceGroup := ⟨0, ⟨3333⟩, ⟨0⟩, ⟨0⟩⟩

/-- Outgoing track that `CreateTrack trackPlain` produces. -/
def otrPlain : OutgoingStreamTrack := ⟨"audio", "tp", osrcPlain, none⟩

/-- State of `outStream0` after `CreateTrack trackPlain`. -/
def outStreamP : OutgoingStream := ⟨"os0", true, false, [osrcPlain], [("tp", otrPlain)]⟩

/-- Audio descriptor with one ssrc and a two-member FID group. -/
def trackFid : TrackInfo := ⟨"tf", "audio", "", [10], [⟨"FID", [10, 20]⟩], []⟩

/-- SIM ssrc-group with two member ssrcs. -/
def simGroupT : SourceGroupInfo := ⟨"SIM", [5, 6]⟩

/-- Video descriptor with a legacy SIM group and a FID companion per member. -/
def trackSim : TrackInfo :=
  ⟨"tsim", "video", "", [5], [simGroupT, ⟨"FID", [5, 50]⟩, ⟨"FID", [6, 60]⟩], []⟩

/-- Descriptor with an empty ssrc list (violates the fallback precondition). -/
def trackNoSsrc : TrackInfo := ⟨"tn", "audio", "", [], [], []⟩

/-- Descriptor whose FID group has a single member (violates the fallback
precondition at the unguarded second-member read). -/
def trackFidShort : TrackInfo := ⟨"tq", "audio", "", [7], [⟨"FID", [7]⟩], []⟩

/-- Descriptor with a SIM group and another ssrc-group with no members
(violates the SIM-branch precondition at the unguarded first-member read). -/
def trackSimBad : TrackInfo := ⟨"ts", "video", "", [1], [⟨"SIM", [5, 6]⟩, ⟨"X", []⟩], []⟩

/-- Encoding with a parseable ssrc parameter. -/
def encGood : TrackEncodingInfo := ⟨"r1", [("ssrc", "7")]⟩

/-- Encoding whose ssrc parameter does not parse. -/
def encBad : TrackEncodingInfo := ⟨"r2", [("ssrc", "x1")]⟩

/-- Video descriptor with one good and one unparseable explicit encoding. -/
def trackBadEnc : TrackInfo := ⟨"tb", "video", "", [9], [], [[encGood, encBad]]⟩

/-! ## Helper lemmas -/

theorem mapSet_fresh {α : Type} (m : List (String × α)) (k : String) (v : α)
    (h : mapHasKey m k = false) : mapSet m k v = m ++ [(k, v)] := by
  simp [mapSet, h]

theorem mapHasKey_mapSet_self {α : Type} (m : List (String × α)) (k : String) (v : α) :
    mapHasKey (mapSet m k v) k = true := by
  unfold mapSet
  by_cases h : mapHasKey m k = true
  · rw [if_pos h]
    unfold mapHasKey at h ⊢
    rw [List.any_map, List.any_eq_true]
    rw [List.any_eq_true] at h
    obtain ⟨p, hp, hpk⟩ := h
    refine ⟨p, hp, ?_⟩
    simp only [Function.comp_apply, hpk, if_true]
    simp
  · rw [if_neg h]
    unfold mapHasKey
    simp [List.any_append]

theorem not_mem_foldl_erase {α : Type} [DecidableEq α] (srcs : List α) (regs : List α)
    (a : α) (h : a ∉ regs) : a ∉ srcs.foldl (fun r s => r.erase s) regs := by
  induction srcs generalizing regs with
  | nil => simpa using h
  | cons s ss ih =>
    exact ih (regs.erase s) (fun hm => h (List.mem_of_mem_erase hm))

theorem mem_foldl_erase_absent {α : Type} [DecidableEq α] (srcs regs : List α)
    (hnd : regs.Nodup) (a : α) (ha : a ∈ srcs) :
    a ∉ srcs.foldl (fun r s => r.erase s) regs := by
  induction srcs generalizing regs with
  | nil => cases ha
  | cons s ss ih =>
    rcases List.mem_cons.mp ha with rfl | ha'
    · exact not_mem_foldl_erase ss (regs.erase a) a hnd.not_mem_erase
    · exact ih (regs.erase s) (hnd.erase s) ha'

theorem countKey_zero_of_not_hasKey {α : Type} (m : List (String × α)) (k : String)
    (h : mapHasKey m k = false) : countKey m k = 0 := by
  unfold countKey
  unfold mapHasKey at h
  rw [List.any_eq_false] at h
  rw [List.length_eq_zero, List.filter_eq_nil_iff]
  exact h

theorem countKey_append {α : Type} (m₁ m₂ : List (String × α)) (k : String) :
    countKey (m₁ ++ m₂) k = countKey m₁ k + countKey m₂ k := by
  simp [countKey, List.filter_append]

theorem exists_two_of_two_le_length {α : Type} {l : List α} (h : 2 ≤ l.length) :
    ∃ a b t, l = a :: b :: t := by
  cases l with
  | nil => simp at h
  | cons a l' =>
    cases l' with
    | nil => simp at h
    | cons b t => exact ⟨a, b, t, rfl⟩

theorem companion_option_eq (track : TrackInfo) (sem : String)
    (hlen : ∀ g, track.GetSourceGroup sem = some g → 2 ≤ g.ssrcs.length) :
    (match track.GetSourceGroup sem with
     | some g => g.ssrcs[1]?
     | none => some 0) = some (singleCompanion track sem) := by
  cases hF : track.GetSourceGroup sem with
  | none => simp [singleCompanion, hF]
  | some g =>
    obtain ⟨a, b, t, hgs⟩ := exists_two_of_two_le_length (hlen g hF)
    simp [singleCompanion, hF, hgs]

theorem computeFallbackSource_eq (track : TrackInfo) (mtype : Nat)
    (hssrc : track.ssrcs ≠ [])
    (hfid : ∀ g, track.GetSourceGroup "FID" = some g → 2 ≤ g.ssrcs.length)
    (hfec : ∀ g, track.GetSourceGroup "FEC-FR" = some g → 2 ≤ g.ssrcs.length) :
    computeFallbackSource track mtype = some
      ⟨mtype, "", "", ⟨track.ssrcs.headD 0⟩,
       ⟨singleCompanion track "FID"⟩, ⟨singleCompanion track "FEC-FR"⟩⟩ := by
  unfold computeFallbackSource
  cases hs : track.ssrcs with
  | nil => exact absurd hs hssrc
  | cons s0 rest =>
    rw [companion_option_eq track "FID" hfid, companion_option_eq track "FEC-FR" hfec]
    simp [newRTPIncomingSourceGroup]

theorem computeOutgoingSource_eq (track : TrackInfo) (mtype : Nat)
    (hssrc : track.ssrcs ≠ [])
    (hfid : ∀ g, track.GetSourceGroup "FID" = some g → 2 ≤ g.ssrcs.length)
    (hfec : ∀ g, track.GetSourceGroup "FEC-FR" = some g → 2 ≤ g.ssrcs.length) :
    computeOutgoingSource track mtype = some
      ⟨mtype, ⟨track.ssrcs.headD 0⟩,
       ⟨singleCompanion track "FID"⟩, ⟨singleCompanion track "FEC-FR"⟩⟩ := by
  unfold computeOutgoingSource
  cases hs : track.ssrcs with
  | nil => exact absurd hs hssrc
  | cons s0 rest =>
    rw [companion_option_eq track "FID" hfid, companion_option_eq track "FEC-FR" hfec]
    simp

theorem revDigits_foldr (f : Nat) : ∀ n : Nat, n ≤ f →
    (revDigits f n).foldr (fun d acc => d + 10 * acc) 0 = n := by
  induction f with
  | zero =>
    intro n hn
    have : n = 0 := by omega
    subst this
    rfl
  | succ f' ih =>
    intro n hn
    unfold revDigits
    by_cases h0 : n = 0
    · subst h0
      rfl
    · rw [if_neg h0]
      simp only [List.foldr_cons]
      rw [ih (n / 10) (by omega)]
      omega

theorem revDigits_lt_ten (f : Nat) : ∀ n : Nat, ∀ d ∈ revDigits f n, d < 10 := by
  induction f with
  | zero =>
    intro n d hd
    simp [revDigits] at hd
  | succ f' ih =>
    intro n d hd
    unfold revDigits at hd
    by_cases h0 : n = 0
    · rw [if_pos h0] at hd
      cases hd
    · rw [if_neg h0] at hd
      rcases List.mem_cons.mp hd with rfl | hd'
      · omega
      · exact ih (n / 10) d hd'

theorem digitChar_inj (d e : Nat) (hd : d < 10) (he : e < 10)
    (h : Char.ofNat (48 + d) = Char.ofNat (48 + e)) : d = e := by
  interval_cases d <;> interval_cases e <;> revert h <;> decide

theorem map_digitChar_inj : ∀ (l1 l2 : List Nat),
    (∀ d ∈ l1, d < 10) → (∀ d ∈ l2, d < 10) →
    l1.map (fun d => Char.ofNat (48 + d)) = l2.map (fun d => Char.ofNat (48 + d)) →
    l1 = l2 := by
  intro l1
  induction l1 with
  | nil =>
    intro l2 _ _ h
    cases l2 with
    | nil => rfl
    | cons b u => simp at h
  | cons a t ih =>
    intro l2 h1 h2 h
    cases l2 with
    | nil => simp at h
    | cons b u =>
      simp only [List.map_cons, List.cons.injEq] at h
      have hab : a = b :=
        digitChar_inj a b (h1 a (List.mem_cons_self a t)) (h2 b (List.mem_cons_self b u)) h.1
      rw [hab, ih u (fun d hd => h1 d (List.mem_cons_of_mem a hd))
        (fun d hd => h2 d (List.mem_cons_of_mem b hd)) h.2]

theorem itoa_zero_iff (n : Nat) (h : itoa n = "0") : n = 0 := by
  by_contra hn
  unfold itoa at h
  rw [if_neg hn] at h
  have hdata : ((revDigits n n).map (fun d => Char.ofNat (48 + d))).reverse = ['0'] := by
    have := congrArg String.data h
    simpa using this
  have hmap : (revDigits n n).map (fun d => Char.ofNat (48 + d)) = ['0'] := by
    have := congrArg List.reverse hdata
    simpa using this
  have hrd : revDigits n n = [0] := by
    have h0 : ([0] : List Nat).map (fun d => Char.ofNat (48 + d)) = ['0'] := by decide
    exact map_digitChar_inj (revDigits n n) [0] (revDigits_lt_ten n n)
      (by intro d hd; simp at hd; omega) (by rw [hmap, h0])
  have := revDigits_foldr n n (Nat.le_refl n)
  rw [hrd] at this
  simp at this
  omega

theorem itoa_injective : Function.Injective itoa := by
  intro m n h
  by_cases hm : m = 0
  · subst hm
    exact (itoa_zero_iff n h.symm).symm
  · by_cases hn : n = 0
    · subst hn
      exact itoa_zero_iff m h
    · unfold itoa at h
      rw [if_neg hm, if_neg hn] at h
      have hdata := congrArg String.data h
      simp only [String.data] at hdata
      have hmap := congrArg List.reverse hdata
      simp only [List.reverse_reverse] at hmap
      have hrd := map_digitChar_inj (revDigits m m) (revDigits n n)
        (revDigits_lt_ten m m) (revDigits_lt_ten n n) hmap
      have h1 := revDigits_foldr m m (Nat.le_refl m)
      have h2 := revDigits_foldr n n (Nat.le_refl n)
      rw [hrd] at h1
      exact h1.symm.trans h2

theorem foldlM_cons_of_some {α β : Type} (f : β → α → Option β) (a : α) (l : List α)
    (b b' : β) (h : f b a = some b') : (a :: l).foldlM f b = l.foldlM f b' := by
  rw [List.foldlM_cons, h]
  rfl

theorem scanGroups_characterization (groups : List SourceGroupInfo)
    (src : RTPIncomingSourceGroup)
    (hu : uniqueMatches groups src.media.ssrc)
    (hl : matchesLongEnough groups src.media.ssrc) :
    groups.foldlM scanStep src = some
      { src with
        rtx := match groups.find? (fidPred "FID" src.media.ssrc) with
               | some g => ⟨g.ssrcs.getD 1 0⟩
               | none => src.rtx,
        fec := match groups.find? (fidPred "FEC-FR" src.media.ssrc) with
               | some g => ⟨g.ssrcs.getD 1 0⟩
               | none => src.fec } := by
  induction groups generalizing src with
  | nil => rfl
  | cons g gs ih =>
    have hl' : matchesLongEnough gs src.media.ssrc :=
      fun g' h' hsem hhd => hl g' (List.mem_cons_of_mem g h') hsem hhd
    cases hh : g.ssrcs.head? with
    | none =>
      have hpF : ¬fidPred "FID" src.media.ssrc g = true := by simp [fidPred, hh]
      have hpE : ¬fidPred "FEC-FR" src.media.ssrc g = true := by simp [fidPred, hh]
      have hstep : scanStep src g = some src := by simp [scanStep, hh]
      rw [foldlM_cons_of_some _ _ _ _ _ hstep,
          List.find?_cons_of_neg _ hpF, List.find?_cons_of_neg _ hpE]
      have hu' : uniqueMatches gs src.media.ssrc := by
        obtain ⟨h1, h2⟩ := hu
        rw [List.filter_cons_of_neg hpF] at h1
        rw [List.filter_cons_of_neg hpE] at h2
        exact ⟨h1, h2⟩
      exact ih src hu' hl'
    | some s0 =>
      by_cases hsm : s0 = src.media.ssrc
      · subst hsm
        by_cases hF : g.semantics = "FID"
        · obtain ⟨a, b, t, hgs⟩ := exists_two_of_two_le_length
            (hl g (List.mem_cons_self g gs) (Or.inl hF) hh)
          have ha : a = src.media.ssrc := by
            rw [hgs] at hh
            simpa using hh
          subst ha
          have hstep : scanStep src g = some { src with rtx := ⟨b⟩ } := by
            simp [scanStep, hh, bindFidFec, hF, hgs]
          have hpF : fidPred "FID" src.media.ssrc g = true := by
            simp [fidPred, hF, hh]
          have hpE : ¬fidPred "FEC-FR" src.media.ssrc g = true := by
            simp [fidPred, hF]
          have hfilF : gs.filter (fidPred "FID" src.media.ssrc) = [] := by
            have h1 := hu.1
            rw [List.filter_cons_of_pos hpF] at h1
            simp only [List.length_cons] at h1
            exact List.length_eq_zero.mp (by omega)
          have hfindF : gs.find? (fidPred "FID" src.media.ssrc) = none := by
            rw [List.find?_eq_none]
            intro x hx hpx
            have hmem : x ∈ gs.filter (fidPred "FID" src.media.ssrc) :=
              List.mem_filter.mpr ⟨hx, hpx⟩
            rw [hfilF] at hmem
            cases hmem
          have hu' : uniqueMatches gs src.media.ssrc := by
            refine ⟨by rw [hfilF]; simp, ?_⟩
            have h2 := hu.2
            rwa [List.filter_cons_of_neg hpE] at h2
          have hrec := ih { src with rtx := ⟨b⟩ } hu' hl'
          rw [foldlM_cons_of_some _ _ _ _ _ hstep, hrec,
              List.find?_cons_of_pos _ hpF, List.find?_cons_of_neg _ hpE]
          simp [hgs, hfindF]
        · by_cases hE : g.semantics = "FEC-FR"
          · obtain ⟨a, b, t, hgs⟩ := exists_two_of_two_le_length
              (hl g (List.mem_cons_self g gs) (Or.inr hE) hh)
            have ha : a = src.media.ssrc := by
              rw [hgs] at hh
              simpa using hh
            subst ha
            have hstep : scanStep src g = some { src with fec := ⟨b⟩ } := by
              simp [scanStep, hh, bindFidFec, hE, hgs]
            have hpF : ¬fidPred "FID" src.media.ssrc g = true := by
              simp [fidPred, hE]
            have hpE : fidPred "FEC-FR" src.media.ssrc g = true := by
              simp [fidPred, hE, hh]
            have hfilE : gs.filter (fidPred "FEC-FR" src.media.ssrc) = [] := by
              have h2 := hu.2
              rw [List.filter_cons_of_pos hpE] at h2
              simp only [List.length_cons] at h2
              exact List.length_eq_zero.mp (by omega)
            have hfindE : gs.find? (fidPred "FEC-FR" src.media.ssrc) = none := by
              rw [List.find?_eq_none]
              intro x hx hpx
              have hmem : x ∈ gs.filter (fidPred "FEC-FR" src.media.ssrc) :=
                List.mem_filter.mpr ⟨hx, hpx⟩
              rw [hfilE] at hmem
              cases hmem
            have hu' : uniqueMatches gs src.media.ssrc := by
              refine ⟨?_, by rw [hfilE]; simp⟩
              have h1 := hu.1
              rwa [List.filter_cons_of_neg hpF] at h1
            have hrec := ih { src with fec := ⟨b⟩ } hu' hl'
            rw [foldlM_cons_of_some _ _ _ _ _ hstep, hrec,
                List.find?_cons_of_neg _ hpF, List.find?_cons_of_pos _ hpE]
            simp [hgs, hfindE]
          · have hstep : scanStep src g = some src := by
              simp [scanStep, hh, bindFidFec, hF, hE]
            have hpF : ¬fidPred "FID" src.media.ssrc g = true := by
              simp [fidPred, hF]
            have hpE : ¬fidPred "FEC-FR" src.media.ssrc g = true := by
              simp [fidPred, hE]
            rw [foldlM_cons_of_some _ _ _ _ _ hstep,
                List.find?_cons_of_neg _ hpF, List.find?_cons_of_neg _ hpE]
            have hu' : uniqueMatches gs src.media.ssrc := by
              obtain ⟨h1, h2⟩ := hu
              rw [List.filter_cons_of_neg hpF] at h1
              rw [List.filter_cons_of_neg hpE] at h2
              exact ⟨h1, h2⟩
            exact ih src hu' hl'
      · have hstep : scanStep src g = some src := by
          simp [scanStep, hh, hsm]
        have hpF : ¬fidPred "FID" src.media.ssrc g = true := by
          simp [fidPred, hh, hsm]
        have hpE : ¬fidPred "FEC-FR" src.media.ssrc g = true := by
          simp [fidPred, hh, hsm]
        rw [foldlM_cons_of_some _ _ _ _ _ hstep,
            List.find?_cons_of_neg _ hpF, List.find?_cons_of_neg _ hpE]
        have hu' : uniqueMatches gs src.media.ssrc := by
          obtain ⟨h1, h2⟩ := hu
          rw [List.filter_cons_of_neg hpF] at h1
          rw [List.filter_cons_of_neg hpE] at h2
          exact ⟨h1, h2⟩
        exact ih src hu' hl'

theorem encBaseSource_mtype (track : TrackInfo) (mtype : Nat) (rid : String) :
    (encBaseSource track mtype rid).mtype = mtype := by
  unfold encBaseSource newRTPIncomingSourceGroup
  by_cases h : (track.mediaId == "") = true <;> simp [h]

theorem encBaseSource_rid (track : TrackInfo) (mtype : Nat) (rid : String) :
    (encBaseSource track mtype rid).rid = rid := by
  unfold encBaseSource newRTPIncomingSourceGroup
  by_cases h : (track.mediaId == "") = true <;> simp [h]

theorem encBaseSource_media (track : TrackInfo) (mtype : Nat) (rid : String) :
    (encBaseSource track mtype rid).media = ⟨0⟩ := by
  unfold encBaseSource newRTPIncomingSourceGroup
  by_cases h : (track.mediaId == "") = true <;> simp [h]

theorem encBaseSource_rtx (track : TrackInfo) (mtype : Nat) (rid : String) :
    (encBaseSource track mtype rid).rtx = ⟨0⟩ := by
  unfold encBaseSource newRTPIncomingSourceGroup
  by_cases h : (track.mediaId == "") = true <;> simp [h]

theorem encBaseSource_fec (track : TrackInfo) (mtype : Nat) (rid : String) :
    (encBaseSource track mtype rid).fec = ⟨0⟩ := by
  unfold encBaseSource newRTPIncomingSourceGroup
  by_cases h : (track.mediaId == "") = true <;> simp [h]

theorem scanGroups_companion (groups : List SourceGroupInfo) (src : RTPIncomingSourceGroup)
    (hrtx : src.rtx = ⟨0⟩) (hfec : src.fec = ⟨0⟩)
    (hu : uniqueMatches groups src.media.ssrc)
    (hl : matchesLongEnough groups src.media.ssrc) :
    groups.foldlM scanStep src = some
      { src with rtx := ⟨companion groups "FID" src.media.ssrc⟩,
                 fec := ⟨companion groups "FEC-FR" src.media.ssrc⟩ } := by
  rw [scanGroups_characterization groups src hu hl]
  unfold companion
  cases hf : groups.find? (fidPred "FID" src.media.ssrc) with
  | none =>
    cases he : groups.find? (fidPred "FEC-FR" src.media.ssrc) with
    | none => simp [hrtx, hfec]
    | some ge => simp [hrtx]
  | some gf =>
    cases he : groups.find? (fidPred "FEC-FR" src.media.ssrc) with
    | none => simp [hfec]
    | some ge => simp

theorem mapHasKey_append {α : Type} (m₁ m₂ : List (String × α)) (k : String) :
    mapHasKey (m₁ ++ m₂) k = (mapHasKey m₁ k || mapHasKey m₂ k) := by
  simp [mapHasKey, List.any_append]

theorem mapGet_map_pairs {β α : Type} (key : β → String) (f : β → α) :
    ∀ (l : List β), (l.map key).Nodup → ∀ e ∈ l,
      mapGet (l.map (fun x => (key x, f x))) (key e) = some (f e) := by
  intro l
  induction l with
  | nil => intro _ e he; cases he
  | cons x t ih =>
    intro hnd e he
    simp only [List.map_cons, List.nodup_cons] at hnd
    by_cases hk : (key x == key e) = true
    · have hkeq : key x = key e := by simpa using hk
      rcases List.mem_cons.mp he with rfl | he'
      · simp [mapGet, List.find?_cons_of_pos _ (show (fun p => p.1 == key e) (key e, f e) = true by simp)]
      · exact absurd (hkeq ▸ List.mem_map_of_mem key he') hnd.1
    · rcases List.mem_cons.mp he with rfl | he'
      · simp at hk
      · have : mapGet (t.map (fun x => (key x, f x))) (key e) = some (f e) := ih hnd.2 e he'
        unfold mapGet at this ⊢
        rw [List.map_cons, List.find?_cons_of_neg _ (by simpa using hk)]
        exact this

theorem processEncoding_eq (track : TrackInfo) (mtype : Nat) (st : ResolveState)
    (e : TrackEncodingInfo)
    (hp : encParses e) (hm : encGroupsOk track e) :
    processEncoding track mtype st e =
      some (registerSource st e.id (resolveEncodingSpec track mtype e)) := by
  unfold processEncoding resolveEncodingSpec
  cases hps : mapGet e.params "ssrc" with
  | none => rfl
  | some sstr =>
    obtain ⟨v, hv⟩ := Option.isSome_iff_exists.mp (hp sstr hps)
    have hmv := hm v (by rw [hps]; simpa using hv)
    dsimp only
    rw [hv]
    dsimp only
    have hscan := scanGroups_companion track.groups
      { encBaseSource track mtype e.id with media := ⟨v⟩ }
      (encBaseSource_rtx track mtype e.id) (encBaseSource_fec track mtype e.id)
      hmv.1 hmv.2
    dsimp only at hscan
    rw [hscan]
    rfl

theorem processEncodings_fold (track : TrackInfo) (mtype : Nat) :
    ∀ (es : List TrackEncodingInfo) (st : ResolveState),
    (∀ e ∈ es, encParses e) →
    (∀ e ∈ es, encGroupsOk track e) →
    (es.map (fun e => e.id)).Nodup →
    (∀ e ∈ es, mapHasKey st.sources e.id = false) →
    es.foldlM (processEncoding track mtype) st = some
      ⟨st.regs ++ es.map (resolveEncodingSpec track mtype),
       st.sources ++ es.map (fun e => (e.id, resolveEncodingSpec track mtype e))⟩ := by
  intro es
  induction es with
  | nil =>
    intro st _ _ _ _
    simp [List.foldlM_nil]
  | cons e es' ih =>
    intro st hp hm hnd hfresh
    have hstep := processEncoding_eq track mtype st e
      (hp e (List.mem_cons_self e es'))
      (hm e (List.mem_cons_self e es'))
    rw [foldlM_cons_of_some _ _ _ _ _ hstep]
    simp only [List.map_cons, List.nodup_cons] at hnd
    have hreg : registerSource st e.id (resolveEncodingSpec track mtype e) =
        ⟨st.regs ++ [resolveEncodingSpec track mtype e],
         st.sources ++ [(e.id, resolveEncodingSpec track mtype e)]⟩ := by
      unfold registerSource
      rw [mapSet_fresh _ _ _ (hfresh e (List.mem_cons_self e es'))]
    rw [hreg]
    have hfresh' : ∀ x ∈ es',
        mapHasKey (st.sources ++ [(e.id, resolveEncodingSpec track mtype e)]) x.id = false := by
      intro x hx
      rw [mapHasKey_append]
      have h1 : mapHasKey st.sources x.id = false := hfresh x (List.mem_cons_of_mem e hx)
      have h2 : mapHasKey [(e.id, resolveEncodingSpec track mtype e)] x.id = false := by
        have hne : e.id ≠ x.id := fun hcontra => hnd.1 (hcontra ▸ List.mem_map_of_mem _ hx)
        simp [mapHasKey, hne]
      rw [h1, h2]
      rfl
    rw [ih ⟨st.regs ++ [resolveEncodingSpec track mtype e],
           st.sources ++ [(e.id, resolveEncodingSpec track mtype e)]⟩
        (fun x hx => hp x (List.mem_cons_of_mem e hx))
        (fun x hx => hm x (List.mem_cons_of_mem e hx)) hnd.2 hfresh']
    simp

theorem scanStepSim_eq_scanStep (src : RTPIncomingSourceGroup) (g : SourceGroupInfo)
    (h : g.ssrcs ≠ []) : scanStepSim src g = scanStep src g := by
  unfold scanStepSim scanStep
  cases hh : g.ssrcs.head? with
  | none => exact absurd (List.head?_eq_none_iff.mp hh) h
  | some s0 => rfl

theorem foldlM_congr_mem {α β : Type} (f f' : β → α → Option β) :
    ∀ (l : List α) (b : β), (∀ b' a, a ∈ l → f b' a = f' b' a) →
    l.foldlM f b = l.foldlM f' b := by
  intro l
  induction l with
  | nil => intro b _; rfl
  | cons a t ih =>
    intro b h
    rw [List.foldlM_cons, List.foldlM_cons, h b a (List.mem_cons_self a t)]
    cases f' b a with
    | none => rfl
    | some b2 =>
      show t.foldlM f b2 = t.foldlM f' b2
      exact ih b2 (fun b' x hx => h b' x (List.mem_cons_of_mem a hx))

theorem scanSim_member (track : TrackInfo) (mtype : Nat) (m : Nat)
    (hg : ∀ g ∈ track.groups, g.ssrcs ≠ [])
    (hu : uniqueMatches track.groups m) (hl : matchesLongEnough track.groups m) :
    track.groups.foldlM scanStepSim { newRTPIncomingSourceGroup mtype with media := ⟨m⟩ } =
      some (resolveSimMemberSpec track mtype m) := by
  rw [foldlM_congr_mem scanStepSim scanStep track.groups _
      (fun b a ha => scanStepSim_eq_scanStep b a (hg a ha))]
  have h := scanGroups_companion track.groups
    { newRTPIncomingSourceGroup mtype with media := ⟨m⟩ } rfl rfl hu hl
  rw [h]
  rfl

theorem processSim_fold (track : TrackInfo) (mtype : Nat) :
    ∀ (l : List Nat) (n : Nat) (st : ResolveState),
    (∀ g ∈ track.groups, g.ssrcs ≠ []) →
    (∀ m ∈ l, uniqueMatches track.groups m ∧ matchesLongEnough track.groups m) →
    (∀ j, n ≤ j → mapHasKey st.sources (itoa j) = false) →
    (l.enumFrom n).foldlM
      (fun st p =>
        (track.groups.foldlM scanStepSim
          { newRTPIncomingSourceGroup mtype with media := ⟨p.2⟩ }).map
          (fun src => registerSource st (itoa p.1) src)) st
    = some ⟨st.regs ++ l.map (resolveSimMemberSpec track mtype),
            st.sources ++ (l.enumFrom n).map
              (fun p => (itoa p.1, resolveSimMemberSpec track mtype p.2))⟩ := by
  intro l
  induction l with
  | nil =>
    intro n st _ _ _
    simp [List.enumFrom]
  | cons m ms ih =>
    intro n st hg hm hfresh
    have hscan := scanSim_member track mtype m hg (hm m (List.mem_cons_self m ms)).1
      (hm m (List.mem_cons_self m ms)).2
    have hstep : (fun (st : ResolveState) (p : Nat × Nat) =>
        (track.groups.foldlM scanStepSim
          { newRTPIncomingSourceGroup mtype with media := ⟨p.2⟩ }).map
          (fun src => registerSource st (itoa p.1) src)) st (n, m)
        = some (registerSource st (itoa n) (resolveSimMemberSpec track mtype m)) := by
      dsimp only
      rw [hscan]
      rfl
    rw [show (m :: ms).enumFrom n = (n, m) :: ms.enumFrom (n + 1) from rfl,
        foldlM_cons_of_some _ _ _ _ _ hstep]
    have hreg : registerSource st (itoa n) (resolveSimMemberSpec track mtype m) =
        ⟨st.regs ++ [resolveSimMemberSpec track mtype m],
         st.sources ++ [(itoa n, resolveSimMemberSpec track mtype m)]⟩ := by
      unfold registerSource
      rw [mapSet_fresh _ _ _ (hfresh n (Nat.le_refl n))]
    rw [hreg]
    have hfresh' : ∀ j, n + 1 ≤ j →
        mapHasKey (st.sources ++ [(itoa n, resolveSimMemberSpec track mtype m)])
          (itoa j) = false := by
      intro j hj
      rw [mapHasKey_append, hfresh j (by omega)]
      have hne : (itoa n == itoa j) = false := by
        rw [beq_eq_false_iff_ne]
        intro hcontra
        have := itoa_injective hcontra
        omega
      simp [mapHasKey, hne]
    rw [ih (n + 1) _ hg (fun x hx => hm x (List.mem_cons_of_mem m hx)) hfresh']
    simp

theorem processEncoding_skips_bad (track : TrackInfo) (mtype : Nat) (st : ResolveState)
    (bad : TrackEncodingInfo) (sstr : String)
    (h1 : mapGet bad.params "ssrc" = some sstr) (h2 : parseUint32 sstr = none) :
    processEncoding track mtype st bad = some st := by
  unfold processEncoding
  dsimp only
  rw [h1]
  dsimp only
  rw [h2]

theorem foldl_skip_bad (track : TrackInfo) (mtype : Nat) (bad : TrackEncodingInfo)
    (sstr : String)
    (h1 : mapGet bad.params "ssrc" = some sstr) (h2 : parseUint32 sstr = none) :
    ∀ (xs ys : List TrackEncodingInfo) (st : ResolveState),
      (xs ++ bad :: ys).foldlM (processEncoding track mtype) st =
      (xs ++ ys).foldlM (processEncoding track mtype) st := by
  intro xs
  induction xs with
  | nil =>
    intro ys st
    simp only [List.nil_append]
    rw [foldlM_cons_of_some _ _ _ _ _ (processEncoding_skips_bad track mtype st bad sstr h1 h2)]
  | cons x xs' ih =>
    intro ys st
    simp only [List.cons_append]
    rw [List.foldlM_cons, List.foldlM_cons]
    cases hx : processEncoding track mtype st x with
    | none => rfl
    | some st' =>
      show (xs' ++ bad :: ys).foldlM _ st' = (xs' ++ ys).foldlM _ st'
      exact ih ys st'

theorem getElem1_none_of_short {l : List Nat} (h : ¬2 ≤ l.length) : l[1]? = none := by
  rcases l with _ | ⟨a, _ | ⟨b, t⟩⟩
  · rfl
  · rfl
  · exact absurd (by simp) h

theorem computeFallbackSource_safe (track : TrackInfo) (mtype : Nat)
    (h : (computeFallbackSource track mtype).isSome = true) : fallbackSafe track := by
  refine ⟨?_, ?_, ?_⟩
  · intro hnil
    have : computeFallbackSource track mtype = none := by
      unfold computeFallbackSource
      rw [hnil]
      rfl
    rw [this] at h
    simp at h
  · intro g hg
    by_contra hlen
    have h1 : g.ssrcs[1]? = none := getElem1_none_of_short hlen
    have hnone : computeFallbackSource track mtype = none := by
      unfold computeFallbackSource
      cases hs : track.ssrcs with
      | nil => rfl
      | cons s0 rest =>
        dsimp only
        rw [hg]
        dsimp only
        rw [h1]
        simp
    rw [hnone] at h
    simp at h
  · intro g hg
    by_contra hlen
    have h1 : g.ssrcs[1]? = none := getElem1_none_of_short hlen
    have hnone : computeFallbackSource track mtype = none := by
      unfold computeFallbackSource
      cases hs : track.ssrcs with
      | nil => rfl
      | cons s0 rest =>
        dsimp only
        rw [hg]
        dsimp only
        rw [h1]
        cases hF : track.GetSourceGroup "FID" with
        | none => simp
        | some gf => cases gf.ssrcs[1]? <;> simp
    rw [hnone] at h
    simp at h

theorem fallback_isSome_iff (track : TrackInfo) (mtype : Nat) :
    (computeFallbackSource track mtype).isSome = true ↔ fallbackSafe track := by
  constructor
  · exact computeFallbackSource_safe track mtype
  · intro hsafe
    rw [computeFallbackSource_eq track mtype hsafe.1 hsafe.2.1 hsafe.2.2]
    rfl

theorem computeOutgoingSource_isSome_eq (track : TrackInfo) (mtype : Nat) :
    (computeOutgoingSource track mtype).isSome = (computeFallbackSource track mtype).isSome := by
  unfold computeOutgoingSource computeFallbackSource
  cases hs : track.ssrcs with
  | nil => rfl
  | cons s0 rest =>
    dsimp only
    cases hF : track.GetSourceGroup "FID" with
    | none =>
      cases hE : track.GetSourceGroup "FEC-FR" with
      | none => simp
      | some ge => cases hy : ge.ssrcs[1]? <;> simp [hy]
    | some gf =>
      cases hx : gf.ssrcs[1]? with
      | none => simp [hx]
      | some r =>
        cases hE : track.GetSourceGroup "FEC-FR" with
        | none => simp [hx]
        | some ge => cases hy : ge.ssrcs[1]? <;> simp [hx, hy]

theorem scanGroups_isSome (groups : List SourceGroupInfo) :
    ∀ src : RTPIncomingSourceGroup, matchesLongEnough groups src.media.ssrc →
    ∃ src', groups.foldlM scanStep src = some src' ∧ src'.media = src.media := by
  induction groups with
  | nil => intro src _; exact ⟨src, rfl, rfl⟩
  | cons g gs ih =>
    intro src hl
    have hl' : matchesLongEnough gs src.media.ssrc :=
      fun g' h' a b => hl g' (List.mem_cons_of_mem g h') a b
    cases hh : g.ssrcs.head? with
    | none =>
      rw [foldlM_cons_of_some _ _ _ _ _ (show scanStep src g = some src by simp [scanStep, hh])]
      exact ih src hl'
    | some s0 =>
      by_cases hsm : s0 = src.media.ssrc
      · subst hsm
        have hstep : ∃ src1, scanStep src g = some src1 ∧ src1.media = src.media := by
          by_cases hF : g.semantics = "FID"
          · obtain ⟨a, b, t, hgs⟩ := exists_two_of_two_le_length
              (hl g (List.mem_cons_self g gs) (Or.inl hF) hh)
            refine ⟨{ src with rtx := ⟨b⟩ }, ?_, rfl⟩
            have ha : a = src.media.ssrc := by rw [hgs] at hh; simpa using hh
            simp [scanStep, hh, bindFidFec, hF, hgs, ha]
          · by_cases hE : g.semantics = "FEC-FR"
            · obtain ⟨a, b, t, hgs⟩ := exists_two_of_two_le_length
                (hl g (List.mem_cons_self g gs) (Or.inr hE) hh)
              refine ⟨{ src with fec := ⟨b⟩ }, ?_, rfl⟩
              have ha : a = src.media.ssrc := by rw [hgs] at hh; simpa using hh
              simp [scanStep, hh, bindFidFec, hE, hF, hgs, ha]
            · exact ⟨src, by simp [scanStep, hh, bindFidFec, hF, hE], rfl⟩
        obtain ⟨src1, hst, hmed⟩ := hstep
        rw [foldlM_cons_of_some _ _ _ _ _ hst]
        have hl1 : matchesLongEnough gs src1.media.ssrc := by rw [hmed]; exact hl'
        obtain ⟨src', hfold, hm2⟩ := ih src1 hl1
        exact ⟨src', hfold, by rw [hm2, hmed]⟩
      · rw [foldlM_cons_of_some _ _ _ _ _
          (show scanStep src g = some src by simp [scanStep, hh, hsm])]
        exact ih src hl'

theorem processSim_isSome (track : TrackInfo) (mtype : Nat) (SIM : SourceGroupInfo)
    (hsafe : simSafe track SIM) :
    (processSim track mtype SIM).isSome = true := by
  unfold processSim
  rw [show SIM.ssrcs.enum = SIM.ssrcs.enumFrom 0 from rfl]
  have key : ∀ (l : List Nat), (∀ m ∈ l, matchesLongEnough track.groups m) →
      ∀ (n : Nat) (st : ResolveState),
      ((l.enumFrom n).foldlM
        (fun st p =>
          (track.groups.foldlM scanStepSim
            { newRTPIncomingSourceGroup mtype with media := ⟨p.2⟩ }).map
            (fun src => registerSource st (itoa p.1) src)) st).isSome = true := by
    intro l
    induction l with
    | nil => intro _ n st; rfl
    | cons m ms ih =>
      intro hml n st
      obtain ⟨src', hsc, _⟩ := scanGroups_isSome track.groups
        { newRTPIncomingSourceGroup mtype with media := ⟨m⟩ }
        (hml m (List.mem_cons_self m ms))
      have hsc' : track.groups.foldlM scanStepSim
          { newRTPIncomingSourceGroup mtype with media := ⟨m⟩ } = some src' := by
        rw [foldlM_congr_mem scanStepSim scanStep track.groups _
          (fun b a ha => scanStepSim_eq_scanStep b a (hsafe.1 a ha))]
        exact hsc
      have hstep : (fun (st : ResolveState) (p : Nat × Nat) =>
          (track.groups.foldlM scanStepSim
            { newRTPIncomingSourceGroup mtype with media := ⟨p.2⟩ }).map
            (fun src => registerSource st (itoa p.1) src)) st (n, m)
          = some (registerSource st (itoa n) src') := by
        dsimp only
        rw [hsc']
        rfl
      rw [show (m :: ms).enumFrom n = (n, m) :: ms.enumFrom (n + 1) from rfl,
          foldlM_cons_of_some _ _ _ _ _ hstep]
      exact ih (fun x hx => hml x (List.mem_cons_of_mem m hx)) (n + 1) _
  exact key SIM.ssrcs (fun m hm => hsafe.2 m hm) 0 ⟨[], []⟩

/-! ## Claims -/

/-- Claim C1 (code bug evaluation): on the spec's own scenario — an outgoing
stream with 1 audio and 1 video track attached to an incoming stream with 2
audio and 1 video tracks — `AttachTo` does not produce 2 transponders leaving
the surplus incoming audio track unpaired; it panics with an out-of-range
index, because the per-kind bound `index` is raised to the larger of the two
list lengths (the `i < index` guard is then vacuous) and `audios[1]` is read
with only one outgoing audio track present. -/
theorem attachTo_scenario_panics : outStream11.AttachTo inStream21 = none := by decide

/-- Claim C2 (counterexample): `OutgoingStream.AddTrack` with an
already-present track id returns no error at all to the caller — the Go
method has no error return value — and silently leaves the stream unchanged,
contradicting the claim that every Stream's `AddTrack` signals DuplicateId. -/
theorem outgoing_addTrack_duplicate_returns_no_error :
    (outStream11.AddTrack outTrackA1).1 = none ∧
    (outStream11.AddTrack outTrackA1).2 = outStream11 := by decide

/-- Claim C2 (amended): `IncomingStream.AddTrack` returns the duplicate-id
error and leaves membership unchanged when the track id is present, and
otherwise inserts; `OutgoingStream.AddTrack` never returns an error: on a
duplicate id it silently leaves membership unchanged, otherwise it inserts. -/
theorem addTrack_duplicate_behaviour (i : IncomingStream) (o : OutgoingStream)
    (t : IncomingStreamTrack) (u : OutgoingStreamTrack) :
    (mapHasKey i.tracks t.id = true →
      i.AddTrack t = (some "Track Id already present in stream", i)) ∧
    (mapHasKey i.tracks t.id = false →
      i.AddTrack t = (none, { i with tracks := i.tracks ++ [(t.id, t)] })) ∧
    (mapHasKey o.tracks u.id = true → o.AddTrack u = (none, o)) ∧
    (mapHasKey o.tracks u.id = false →
      o.AddTrack u = (none, { o with tracks := o.tracks ++ [(u.id, u)] })) := by
  refine ⟨fun h => ?_, fun h => ?_, fun h => ?_, fun h => ?_⟩
  · simp [IncomingStream.AddTrack, h]
  · simp [IncomingStream.AddTrack, h, mapSet_fresh]
  · simp [OutgoingStream.AddTrack, h]
  · simp [OutgoingStream.AddTrack, h, mapSet_fresh]

/-- Claim C2 witness: the amended behaviour evaluated on concrete streams. -/
theorem addTrack_duplicate_behaviour_witness :
    inStream21.AddTrack inTrackA1 =
      (some "Track Id already present in stream", inStream21) ∧
    outStream11.AddTrack outTrackA1 = (none, outStream11) := by
  have h := addTrack_duplicate_behaviour inStream21 outStream11 inTrackA1 outTrackA1
  exact ⟨h.1 (by decide), h.2.2.1 (by decide)⟩

/-- Claim C8: `Stop` on a live stream empties the track map (incoming: and
releases the receive endpoint; outgoing: and unregisters every track's source
group from the transport's dispatch table, stated here for a dispatch table
without duplicate registrations), and `Stop` is idempotent — a second call on
an already-stopped stream changes nothing. -/
theorem stop_empties_and_idempotent (i : IncomingStream) (o : OutgoingStream) :
    (i.transportAlive = true →
      (i.Stop).tracks = [] ∧ (i.Stop).receiverAlive = false ∧
      (i.Stop).transportAlive = false) ∧
    i.Stop.Stop = i.Stop ∧
    (o.transportAlive = true →
      (o.Stop).tracks = [] ∧ (o.Stop).transportAlive = false ∧
      (o.regs.Nodup → ∀ p ∈ o.tracks, p.2.source ∉ (o.Stop).regs)) ∧
    o.Stop.Stop = o.Stop := by
  refine ⟨fun hi => ?_, ?_, fun ho => ?_, ?_⟩
  · simp [IncomingStream.Stop, hi]
  · by_cases hi : i.transportAlive = false
    · simp [IncomingStream.Stop, hi]
    · simp [IncomingStream.Stop, hi]
  · refine ⟨by simp [OutgoingStream.Stop, ho], by simp [OutgoingStream.Stop, ho], ?_⟩
    intro hnd p hp
    have : (o.Stop).regs = o.tracks.foldl (fun r q => q.2.DeleteOutgoingSourceGroup r) o.regs := by
      simp [OutgoingStream.Stop, ho]
    rw [this]
    have hrw : o.tracks.foldl (fun r q => q.2.DeleteOutgoingSourceGroup r) o.regs =
        (o.tracks.map (fun q => q.2.source)).foldl (fun r s => r.erase s) o.regs := by
      rw [List.foldl_map]
      rfl
    rw [hrw]
    exact mem_foldl_erase_absent _ o.regs hnd p.2.source
      (List.mem_map_of_mem (fun q => q.2.source) hp)
  · by_cases ho : o.transportAlive = false
    · simp [OutgoingStream.Stop, ho]
    · simp only [OutgoingStream.Stop, ho, Bool.false_eq_true, if_false]
      simp

/-- Claim C8 witness: `Stop` evaluated on the concrete live streams. -/
theorem stop_empties_and_idempotent_witness :
    inStream21.Stop.tracks = [] ∧ inStream21.Stop.receiverAlive = false ∧
    outStream11.Stop.tracks = [] ∧
    (("oa1", outTrackA1) ∈ outStream11.tracks → outTrackA1.source ∉ outStream11.Stop.regs) := by
  have h := stop_empties_and_idempotent inStream21 outStream11
  refine ⟨(h.1 (by decide)).1, (h.1 (by decide)).2.1, (h.2.2.1 (by decide)).1, ?_⟩
  intro hm
  exact (h.2.2.1 (by decide)).2.2 (by decide) ("oa1", outTrackA1) hm

/-- Claim C9: `Detach` on an outgoing stream leaves the track membership
unchanged — the map after the call carries exactly the same keys, and each
track keeps its id, media kind and source group — and only the per-track
pairing is released. -/
theorem detach_preserves_membership (o : OutgoingStream) :
    (o.Detach).tracks.map Prod.fst = o.tracks.map Prod.fst ∧
    (o.Detach).tracks =
      o.tracks.map (fun p => (p.1, ⟨p.2.media, p.2.id, p.2.source, none⟩)) := by
  constructor
  · simp [OutgoingStream.Detach]
  · rfl

/-- Claim C3: once a `CreateTrack` call has returned a track, a second call
with a descriptor carrying the same id is a no-op for both stream kinds: it
returns `nil`, leaves the stream (track map and the transport's dispatch
table of registered source groups) exactly as it was, and exactly one track
with that id remains registered. -/
theorem createTrack_second_call_noop (i i' : IncomingStream) (o o' : OutgoingStream)
    (track : TrackInfo) (tr : IncomingStreamTrack) (otr : OutgoingStreamTrack)
    (h1 : i.CreateTrack track = some (i', some tr))
    (h2 : o.CreateTrack track = some (o', some otr)) :
    i'.CreateTrack track = some (i', none) ∧ countKey i'.tracks track.id = 1 ∧
    o'.CreateTrack track = some (o', none) ∧ countKey o'.tracks track.id = 1 := by
  have hin : i'.CreateTrack track = some (i', none) ∧ countKey i'.tracks track.id = 1 := by
    unfold IncomingStream.CreateTrack at h1
    cases hk : mapHasKey i.tracks track.id with
    | true =>
      rw [if_pos (by simp [hk])] at h1
      simp at h1
    | false =>
      rw [if_neg (by simp [hk])] at h1
      cases hres : resolveTrackSources track (mtypeOf track) with
      | none => rw [hres] at h1; simp at h1
      | some st =>
        rw [hres] at h1
        simp only [Option.map_some', Option.some.injEq, Prod.mk.injEq] at h1
        obtain ⟨hstream, -⟩ := h1
        subst hstream
        constructor
        · simp [IncomingStream.CreateTrack, mapHasKey_mapSet_self]
        · show countKey (mapSet i.tracks track.id _) track.id = 1
          rw [mapSet_fresh _ _ _ hk, countKey_append, countKey_zero_of_not_hasKey _ _ hk]
          simp [countKey]
  have hout : o'.CreateTrack track = some (o', none) ∧ countKey o'.tracks track.id = 1 := by
    unfold OutgoingStream.CreateTrack at h2
    cases hsrc : computeOutgoingSource track (mtypeOf track) with
    | none => rw [hsrc] at h2; simp at h2
    | some src =>
      rw [hsrc] at h2
      simp only [Option.map_some', Option.some.injEq] at h2
      cases hk : mapHasKey o.tracks track.id with
      | true =>
        rw [if_pos (by simp [hk])] at h2
        simp at h2
      | false =>
        rw [if_neg (by simp [hk])] at h2
        simp only [Prod.mk.injEq] at h2
        obtain ⟨hstream, -⟩ := h2
        subst hstream
        constructor
        · unfold OutgoingStream.CreateTrack
          rw [hsrc]
          simp [mapHasKey_mapSet_self]
        · show countKey (mapSet o.tracks track.id _) track.id = 1
          rw [mapSet_fresh _ _ _ hk, countKey_append, countKey_zero_of_not_hasKey _ _ hk]
          simp [countKey]
  exact ⟨hin.1, hin.2, hout.1, hout.2⟩

/-- Claim C3 witness: creating the plain track on empty streams and calling
`CreateTrack` again with the same descriptor. -/
theorem createTrack_second_call_noop_witness :
    inStreamP.CreateTrack trackPlain = some (inStreamP, none) ∧
    countKey inStreamP.tracks trackPlain.id = 1 ∧
    outStreamP.CreateTrack trackPlain = some (outStreamP, none) ∧
    countKey outStreamP.tracks trackPlain.id = 1 :=
  createTrack_second_call_noop inStream0 inStreamP outStream0 outStreamP
    trackPlain trPlain otrPlain (by decide) (by decide)

/-- Claim C5: for a descriptor with neither explicit encodings nor a SIM
group (and a well-formed shape: a first ssrc exists, a FID / FEC-FR group, if
present, has a second member), both `CreateTrack`s resolve exactly one source
group — incoming: keyed by the empty string — whose media ssrc is the
descriptor's first ssrc and whose rtx / fec ssrc is the second member of the
FID / FEC-FR group when present and 0 otherwise. -/
theorem createTrack_single_flow (i : IncomingStream) (o : OutgoingStream) (track : TrackInfo)
    (henc : track.encodings = [])
    (hsim : track.GetSourceGroup "SIM" = none)
    (hssrc : track.ssrcs ≠ [])
    (hfid : ∀ g, track.GetSourceGroup "FID" = some g → 2 ≤ g.ssrcs.length)
    (hfec : ∀ g, track.GetSourceGroup "FEC-FR" = some g → 2 ≤ g.ssrcs.length)
    (hifresh : mapHasKey i.tracks track.id = false)
    (hofresh : mapHasKey o.tracks track.id = false) :
    i.CreateTrack track = some
      ({ i with regs := i.regs ++ [fallbackSpecSource track],
                tracks := i.tracks ++
                  [(track.id, ⟨track.media, track.id, [("", fallbackSpecSource track)]⟩)] },
       some ⟨track.media, track.id, [("", fallbackSpecSource track)]⟩) ∧
    o.CreateTrack track = some
      ({ o with regs := o.regs ++ [fallbackSpecOutSource track],
                tracks := o.tracks ++
                  [(track.id, ⟨track.media, track.id, fallbackSpecOutSource track, none⟩)] },
       some ⟨track.media, track.id, fallbackSpecOutSource track, none⟩) := by
  constructor
  · unfold IncomingStream.CreateTrack
    rw [if_neg (by simp [hifresh])]
    unfold resolveTrackSources
    rw [if_neg (by simp [henc])]
    rw [hsim, computeFallbackSource_eq track (mtypeOf track) hssrc hfid hfec]
    simp only [Option.map_some', Option.some.injEq, Prod.mk.injEq]
    rw [mapSet_fresh _ _ _ hifresh]
    simp [registerSource, mapSet, mapHasKey, fallbackSpecSource]
  · unfold OutgoingStream.CreateTrack
    rw [computeOutgoingSource_eq track (mtypeOf track) hssrc hfid hfec]
    simp only [Option.map_some']
    rw [if_neg (by simp [hofresh])]
    simp only [Option.some.injEq, Prod.mk.injEq]
    rw [mapSet_fresh _ _ _ hofresh]
    simp [fallbackSpecOutSource]

/-- Claim C5 witness: the single-flow resolution evaluated on a concrete
audio descriptor with one ssrc and a FID group [10, 20]. -/
theorem createTrack_single_flow_witness :
    inStream0.CreateTrack trackFid = some
      ({ inStream0 with regs := [fallbackSpecSource trackFid],
                        tracks := [("tf", ⟨"audio", "tf", [("", fallbackSpecSource trackFid)]⟩)] },
       some ⟨"audio", "tf", [("", fallbackSpecSource trackFid)]⟩) ∧
    outStream0.CreateTrack trackFid = some
      ({ outStream0 with regs := [fallbackSpecOutSource trackFid],
                         tracks := [("tf", ⟨"audio", "tf", fallbackSpecOutSource trackFid, none⟩)] },
       some ⟨"audio", "tf", fallbackSpecOutSource trackFid, none⟩) :=
  createTrack_single_flow inStream0 outStream0 trackFid rfl (by decide) (by decide)
    (by decide) (by decide) (by decide) (by decide)

/-- Claim C4: for an incoming-track descriptor with N explicit named
encodings (pairwise-distinct rids, parseable ssrc parameters, unambiguous and
long-enough ssrc-groups), resolution yields exactly N source groups, one per
encoding keyed by its rid; for each encoding declaring a parseable ssrc
parameter, the group's media ssrc is that value and the rtx / fec ssrc is the
second member of the FID / FEC-FR group whose first member equals it (0 when
absent). -/
theorem createTrack_explicit_encodings (i : IncomingStream) (track : TrackInfo)
    (hfresh : mapHasKey i.tracks track.id = false)
    (hne : track.encodings ≠ [])
    (hparse : ∀ e ∈ track.encodings.flatten, encParses e)
    (hgq : ∀ e ∈ track.encodings.flatten, encGroupsOk track e)
    (hnd : (track.encodings.flatten.map (fun e => e.id)).Nodup) :
    ∃ tr : IncomingStreamTrack,
      i.CreateTrack track = some
        ({ i with
            regs := i.regs ++
              track.encodings.flatten.map (resolveEncodingSpec track (mtypeOf track)),
            tracks := i.tracks ++ [(track.id, tr)] }, some tr) ∧
      tr.sources = track.encodings.flatten.map
        (fun e => (e.id, resolveEncodingSpec track (mtypeOf track) e)) ∧
      tr.sources.length = track.encodings.flatten.length ∧
      (∀ e ∈ track.encodings.flatten,
        mapGet tr.sources e.id = some (resolveEncodingSpec track (mtypeOf track) e) ∧
        ∀ sstr v, mapGet e.params "ssrc" = some sstr → parseUint32 sstr = some v →
          (resolveEncodingSpec track (mtypeOf track) e).media.ssrc = v ∧
          (resolveEncodingSpec track (mtypeOf track) e).rtx.ssrc =
            companion track.groups "FID" v ∧
          (resolveEncodingSpec track (mtypeOf track) e).fec.ssrc =
            companion track.groups "FEC-FR" v) := by
  have hfold := processEncodings_fold track (mtypeOf track) track.encodings.flatten
    ⟨[], []⟩ hparse hgq hnd (fun e _ => rfl)
  refine ⟨⟨track.media, track.id,
    track.encodings.flatten.map (fun e => (e.id, resolveEncodingSpec track (mtypeOf track) e))⟩,
    ?_, rfl, by rw [List.length_map], fun e he => ⟨?_, fun sstr v hps hv => ?_⟩⟩
  · unfold IncomingStream.CreateTrack
    rw [if_neg (by simp [hfresh])]
    unfold resolveTrackSources
    rw [if_pos (List.length_pos.mpr hne)]
    unfold processEncodings
    rw [hfold]
    dsimp only [Option.map_some']
    rw [mapSet_fresh _ _ _ hfresh]
    simp
  · exact mapGet_map_pairs (fun e => e.id) _ _ hnd e he
  · simp [resolveEncodingSpec, hps, hv]

/-- Claim C4 witness: the spec's scenario — one explicit encoding with
ssrc 1111 and an ssrc-group FID = [1111, 2222] — resolves to one group with
media.ssrc = 1111, rtx.ssrc = 2222 and fec.ssrc = 0. -/
theorem createTrack_explicit_encodings_witness :
    ∃ tr : IncomingStreamTrack,
      inStream0.CreateTrack trackScenarioC4 = some
        ({ inStream0 with
            regs := trackScenarioC4.encodings.flatten.map
              (resolveEncodingSpec trackScenarioC4 (mtypeOf trackScenarioC4)),
            tracks := [("t4", tr)] }, some tr) ∧
      tr.sources.length = 1 ∧
      (resolveEncodingSpec trackScenarioC4 (mtypeOf trackScenarioC4)
        ⟨"hi", [("ssrc", "1111")]⟩).media.ssrc = 1111 ∧
      (resolveEncodingSpec trackScenarioC4 (mtypeOf trackScenarioC4)
        ⟨"hi", [("ssrc", "1111")]⟩).rtx.ssrc = 2222 ∧
      (resolveEncodingSpec trackScenarioC4 (mtypeOf trackScenarioC4)
        ⟨"hi", [("ssrc", "1111")]⟩).fec.ssrc = 0 := by
  obtain ⟨tr, h1, h2, h3, h4⟩ := createTrack_explicit_encodings inStream0 trackScenarioC4
    (by decide) (by decide) (by decide) (by decide) (by decide)
  refine ⟨tr, h1, by rw [h3]; rfl, ?_⟩
  have h5 := (h4 ⟨"hi", [("ssrc", "1111")]⟩ (by decide)).2 "1111" 1111 rfl (by decide)
  have hcomp1 : companion trackScenarioC4.groups "FID" 1111 = 2222 := by decide
  have hcomp2 : companion trackScenarioC4.groups "FEC-FR" 1111 = 0 := by decide
  exact ⟨h5.1, by rw [h5.2.1, hcomp1], by rw [h5.2.2, hcomp2]⟩

/-- Claim C6: for an incoming-track descriptor with no explicit encodings but
a SIM ssrc-group with k members (all ssrc-groups non-empty, at most one
matching FID / FEC-FR group per member and each long enough), resolution
yields exactly k source groups keyed "0" .. "k-1"; group j's media ssrc is
the j-th SIM member, its rtx / fec ssrc the second member of the FID /
FEC-FR group whose first member equals it (0 when absent). -/
theorem createTrack_sim_group (i : IncomingStream) (track : TrackInfo)
    (SIM : SourceGroupInfo)
    (hfresh : mapHasKey i.tracks track.id = false)
    (henc : track.encodings = [])
    (hsim : track.GetSourceGroup "SIM" = some SIM)
    (hg : ∀ g ∈ track.groups, g.ssrcs ≠ [])
    (hm : ∀ m ∈ SIM.ssrcs, uniqueMatches track.groups m ∧ matchesLongEnough track.groups m) :
    ∃ tr : IncomingStreamTrack,
      i.CreateTrack track = some
        ({ i with
            regs := i.regs ++ SIM.ssrcs.map (resolveSimMemberSpec track (mtypeOf track)),
            tracks := i.tracks ++ [(track.id, tr)] }, some tr) ∧
      tr.sources = SIM.ssrcs.enum.map
        (fun p => (itoa p.1, resolveSimMemberSpec track (mtypeOf track) p.2)) ∧
      tr.sources.length = SIM.ssrcs.length ∧
      ∀ (j : Nat) (hj : j < SIM.ssrcs.length),
        mapGet tr.sources (itoa j) =
          some (resolveSimMemberSpec track (mtypeOf track) SIM.ssrcs[j]) ∧
        (resolveSimMemberSpec track (mtypeOf track) SIM.ssrcs[j]).media.ssrc =
          SIM.ssrcs[j] ∧
        (resolveSimMemberSpec track (mtypeOf track) SIM.ssrcs[j]).rtx.ssrc =
          companion track.groups "FID" SIM.ssrcs[j] ∧
        (resolveSimMemberSpec track (mtypeOf track) SIM.ssrcs[j]).fec.ssrc =
          companion track.groups "FEC-FR" SIM.ssrcs[j] := by
  have hfold := processSim_fold track (mtypeOf track) SIM.ssrcs 0 ⟨[], []⟩ hg hm
    (fun j _ => rfl)
  refine ⟨⟨track.media, track.id, SIM.ssrcs.enum.map
      (fun p => (itoa p.1, resolveSimMemberSpec track (mtypeOf track) p.2))⟩,
    ?_, rfl, by rw [List.length_map, List.enum_length], fun j hj => ⟨?_, rfl, rfl, rfl⟩⟩
  · unfold IncomingStream.CreateTrack
    rw [if_neg (by simp [hfresh])]
    unfold resolveTrackSources
    rw [if_neg (by simp [henc]), hsim]
    unfold processSim
    dsimp only
    rw [show SIM.ssrcs.enum = SIM.ssrcs.enumFrom 0 from rfl]
    dsimp only at hfold
    rw [hfold]
    dsimp only [Option.map_some']
    rw [mapSet_fresh _ _ _ hfresh]
    simp
  · have hkeys : (SIM.ssrcs.enum.map (fun p => itoa p.1)).Nodup := by
      have h1 : SIM.ssrcs.enum.map (fun p => itoa p.1) =
          (List.range SIM.ssrcs.length).map itoa := by
        rw [← List.enum_map_fst SIM.ssrcs, List.map_map]
        rfl
      rw [h1]
      exact (List.nodup_range _).map itoa_injective
    have hlen : j < SIM.ssrcs.enum.length := by rw [List.enum_length]; exact hj
    have hmem : (j, SIM.ssrcs[j]) ∈ SIM.ssrcs.enum := by
      have hval := List.getElem_enum SIM.ssrcs j hlen
      rw [← hval]
      exact List.getElem_mem hlen
    exact mapGet_map_pairs (fun p : Nat × Nat => itoa p.1)
      (fun p => resolveSimMemberSpec track (mtypeOf track) p.2) SIM.ssrcs.enum hkeys
      (j, SIM.ssrcs[j]) hmem

/-- Claim C6 witness: a SIM group with members [5, 6] and FID companions
[5, 50] and [6, 60] resolves to two source groups keyed "0" and "1". -/
theorem createTrack_sim_group_witness :
    (∃ tr : IncomingStreamTrack,
      inStream0.CreateTrack trackSim = some
        ({ inStream0 with
            regs := inStream0.regs ++
              simGroupT.ssrcs.map (resolveSimMemberSpec trackSim (mtypeOf trackSim)),
            tracks := inStream0.tracks ++ [(trackSim.id, tr)] }, some tr) ∧
      tr.sources.length = 2) ∧
    companion trackSim.groups "FID" 5 = 50 ∧
    companion trackSim.groups "FID" 6 = 60 ∧
    companion trackSim.groups "FEC-FR" 5 = 0 := by
  obtain ⟨tr, h1, _, h3, _⟩ := createTrack_sim_group inStream0 trackSim simGroupT
    (by decide) rfl (by decide) (by decide) (by decide)
  exact ⟨⟨tr, h1, h3⟩, by decide, by decide, by decide⟩

/-- Claim C7: an explicit encoding whose ssrc parameter fails to parse is
skipped: processing it changes nothing (no group registered with the
transport, no entry in the mapping, no abort), processing a flattened
encoding list containing it equals processing the list with it removed, and
`CreateTrack` on the whole descriptor equals `CreateTrack` on the descriptor
with the offending encoding deleted — it never aborts because of it. -/
theorem unparseable_encoding_skipped (track : TrackInfo) (mtype : Nat)
    (bad : TrackEncodingInfo) (sstr : String)
    (h1 : mapGet bad.params "ssrc" = some sstr) (h2 : parseUint32 sstr = none) :
    (∀ st : ResolveState, processEncoding track mtype st bad = some st) ∧
    (∀ (xs ys : List TrackEncodingInfo) (st : ResolveState),
      (xs ++ bad :: ys).foldlM (processEncoding track mtype) st =
      (xs ++ ys).foldlM (processEncoding track mtype) st) ∧
    (∀ (i : IncomingStream) (xs ys : List TrackEncodingInfo),
      track.encodings.flatten = xs ++ bad :: ys → track.encodings ≠ [] →
      i.CreateTrack track = i.CreateTrack { track with encodings := [xs ++ ys] }) := by
  refine ⟨fun st => processEncoding_skips_bad track mtype st bad sstr h1 h2,
    foldl_skip_bad track mtype bad sstr h1 h2, fun i xs ys hflat hne => ?_⟩
  by_cases hk : mapHasKey i.tracks track.id = true
  · simp only [IncomingStream.CreateTrack, hk, if_true]
  · have hres : resolveTrackSources track (mtypeOf track) =
        resolveTrackSources { track with encodings := [xs ++ ys] }
          (mtypeOf { track with encodings := [xs ++ ys] }) := by
      unfold resolveTrackSources
      rw [if_pos (List.length_pos.mpr hne), if_pos (by simp)]
      unfold processEncodings
      rw [hflat, foldl_skip_bad track (mtypeOf track) bad sstr h1 h2 xs ys]
      show (xs ++ ys).foldlM _ _ = (([xs ++ ys] : List (List TrackEncodingInfo)).flatten).foldlM _ _
      rw [show ([xs ++ ys] : List (List TrackEncodingInfo)).flatten = (xs ++ ys) ++ [] from rfl,
          List.append_nil]
      rfl
    simp only [IncomingStream.CreateTrack, hk]
    rw [← hres]

/-- Claim C7 witness: a descriptor with a good encoding (ssrc "7") and an
unparseable one (ssrc "x1") is processed exactly like the descriptor without
the bad encoding. -/
theorem unparseable_encoding_skipped_witness :
    processEncoding trackBadEnc (mtypeOf trackBadEnc) ⟨[], []⟩ encBad = some ⟨[], []⟩ ∧
    inStream0.CreateTrack trackBadEnc =
      inStream0.CreateTrack { trackBadEnc with encodings := [[encGood]] } := by
  have h := unparseable_encoding_skipped trackBadEnc (mtypeOf trackBadEnc) encBad "x1"
    (by decide) (by decide)
  exact ⟨h.1 ⟨[], []⟩, h.2.2 inStream0 [encGood] [] (by decide) (by decide)⟩

/-- Claim C10: the descriptor index accesses of `CreateTrack` are unguarded.
In the single-flow fallback (both stream kinds) the operation is panic-free
exactly when the descriptor's ssrc list is non-empty and every consulted FID /
FEC-FR group has a second member; in the legacy SIM branch the stated
precondition (every group non-empty, matching companion groups long enough)
guarantees panic-freedom; and concrete descriptors violating the
precondition make `CreateTrack` panic (`none`) instead of reporting a
MalformedDescriptor error. -/
theorem createTrack_unguarded_indexing (i : IncomingStream) (o : OutgoingStream)
    (track : TrackInfo) (SIM : SourceGroupInfo) :
    (mapHasKey i.tracks track.id = false → track.encodings = [] →
      track.GetSourceGroup "SIM" = none →
      ((i.CreateTrack track).isSome = true ↔ fallbackSafe track)) ∧
    ((o.CreateTrack track).isSome = true ↔ fallbackSafe track) ∧
    (mapHasKey i.tracks track.id = false → track.encodings = [] →
      track.GetSourceGroup "SIM" = some SIM → simSafe track SIM →
      (i.CreateTrack track).isSome = true) ∧
    inStream0.CreateTrack trackNoSsrc = none ∧
    outStream0.CreateTrack trackNoSsrc = none ∧
    inStream0.CreateTrack trackFidShort = none ∧
    inStream0.CreateTrack trackSimBad = none := by
  refine ⟨fun hfresh henc hsim => ?_, ?_, fun hfresh henc hsim hsafe => ?_,
    by decide, by decide, by decide, by decide⟩
  · unfold IncomingStream.CreateTrack
    rw [if_neg (by simp [hfresh])]
    unfold resolveTrackSources
    rw [if_neg (by simp [henc]), hsim]
    dsimp only
    rw [← fallback_isSome_iff track (mtypeOf track)]
    cases co : computeFallbackSource track (mtypeOf track) <;> simp
  · unfold OutgoingStream.CreateTrack
    rw [← fallback_isSome_iff track (mtypeOf track),
        ← computeOutgoingSource_isSome_eq track (mtypeOf track)]
    cases co : computeOutgoingSource track (mtypeOf track) <;> simp
  · unfold IncomingStream.CreateTrack
    rw [if_neg (by simp [hfresh])]
    unfold resolveTrackSources
    rw [if_neg (by simp [henc]), hsim]
    dsimp only
    have hps := processSim_isSome track (mtypeOf track) SIM hsafe
    cases cp : processSim track (mtypeOf track) SIM with
    | none => rw [cp] at hps; simp at hps
    | some st => rfl

/-- Claim C10 witness: the safety directions evaluated on concrete
panic-free descriptors. -/
theorem createTrack_unguarded_indexing_witness :
    (inStream0.CreateTrack trackPlain).isSome = true ∧
    (outStream0.CreateTrack trackPlain).isSome = true ∧
    (inStream0.CreateTrack trackSim).isSome = true := by
  have h1 := createTrack_unguarded_indexing inStream0 outStream0 trackPlain simGroupT
  have h2 := createTrack_unguarded_indexing inStream0 outStream0 trackSim simGroupT
  exact ⟨(h1.1 (by decide) rfl (by decide)).mpr (by decide), h1.2.1.mpr (by decide),
    h2.2.2.1 (by decide) rfl (by decide) (by decide)⟩

end MediaServer
